import Mathlib

/-!
Shallow embedding of the multi-provider dispatch core of the
svelte-claude-code-proxy repository, together with proofs that settle the
frozen claims about it.

Embedded source files:
  * `src/backend/src/claude_code_proxy/src/core/provider_manager.py`
    (`ProviderStatus`, `ProviderState`, `ProviderManager`)
  * `src/src/models/provider.py` (the configuration records)
  * `src/src/core/model_manager.py` (`ModelManager`)
  * `src/src/api/endpoints.py` (`validate_api_key`,
    `handle_request_with_fallback`, `try_fallback`, `toggle_provider`)

Modelling conventions:
  * Python wall-clock instants (`time.time()`) are `Int` values passed
    explicitly as a `now` argument.
  * Python dicts keyed by strings are association lists in insertion order
    (Python dicts preserve insertion order, which matters for iteration
    and for the stable `list.sort`).
  * Python string operations are re-implemented structurally over the
    character list (`strLower`, `strContains`, `strStartsWith`,
    `strReplace`) so that every definition evaluates inside the kernel.
  * `random.shuffle` (used by the `round_robin` and `random` fallback
    strategies) is modelled by an explicit permutation oracle argument.
  * The upstream HTTP client object is out of scope; an upstream call is
    modelled by an oracle `call : String → String → Option Nat` giving,
    for a provider name and model, `none` on success and `some status`
    when the call raises `HTTPException(status)`.
  * `uuid.uuid4()` is modelled by a counter producing fresh numeric ids.
-/

/-! ### String helpers (structural re-implementations of Python `str` ops) -/

/-- ASCII lower-casing of one character, as Python `str.lower` does on the
ASCII range used by model names. -/
def lowerChar (c : Char) : Char :=
  if 'A' ≤ c && c ≤ 'Z' then Char.ofNat (c.toNat + 32) else c

/-- Python `s.lower()`. -/
def strLower (s : String) : String := ⟨s.data.map lowerChar⟩

/-- Decides whether the first list is a prefix of the second. -/
def listPrefix : List Char → List Char → Bool
  | [], _ => true
  | _ :: _, [] => false
  | a :: as, b :: bs => a == b && listPrefix as bs

/-- Decides whether `needle` occurs as a contiguous sublist. -/
def listContains (needle : List Char) : List Char → Bool
  | [] => listPrefix needle []
  | c :: rest => listPrefix needle (c :: rest) || listContains needle rest

/-- Python `sub in s`. -/
def strContains (s sub : String) : Bool := listContains sub.data s.data

/-- Python `s.startswith(pre)`. -/
def strStartsWith (s pre : String) : Bool := listPrefix pre.data s.data

/-- Worker for `strReplace`; the fuel starts at the length of the subject
string, which bounds the number of steps for a non-empty pattern. -/
def replaceAllAux (pat rep : List Char) : Nat → List Char → List Char
  | 0, s => s
  | _ + 1, [] => []
  | fuel + 1, c :: rest =>
    if listPrefix pat (c :: rest) then
      rep ++ replaceAllAux pat rep fuel ((c :: rest).drop pat.length)
    else
      c :: replaceAllAux pat rep fuel rest

/-- Python `s.replace(pat, rep)`: replaces every non-overlapping occurrence,
scanning left to right (pattern assumed non-empty, as in the source). -/
def strReplace (s pat rep : String) : String :=
  ⟨replaceAllAux pat.data rep.data s.data.length s.data⟩

/-- Python truthiness of an optional string: `None` and `""` are falsy. -/
def truthy : Option String → Bool
  | none => false
  | some s => !(s == "")

/-! ### Data model (`src/src/models/provider.py`) -/

/-- `ProviderStatus` enumeration from `provider_manager.py`. -/
inductive ProviderStatus where
  | healthy
  | unhealthy
  | circuit_open
deriving DecidableEq, Repr

/-- `ProviderModelConfig`: the three ordered model lists of one provider. -/
structure ProviderModelConfig where
  big : List String := []
  middle : List String := []
  small : List String := []
deriving DecidableEq, Repr

/-- Python `getattr(models, model_type, [])` used by
`ProviderState.get_next_model`. -/
def ProviderModelConfig.forType (m : ProviderModelConfig) (t : String) : List String :=
  if t == "big" then m.big
  else if t == "middle" then m.middle
  else if t == "small" then m.small
  else []

/-- `ProviderConfig` (static, loaded from JSON).  The transport fields
(`api_key`, `base_url`, `api_version`, `timeout`, `max_retries`,
`custom_headers`) configure the out-of-scope HTTP client and are kept as
plain data. -/
structure ProviderConfig where
  name : String
  enabled : Bool := true
  priority : Int
  api_key : String := ""
  base_url : String := ""
  models : ProviderModelConfig := {}
deriving DecidableEq, Repr

/-- `CircuitBreakerConfig`. -/
structure CircuitBreakerConfig where
  failure_threshold : Nat := 5
  recovery_timeout : Int := 60
deriving DecidableEq, Repr

/-- `ProviderManagerConfig`. -/
structure ProviderManagerConfig where
  providers : List ProviderConfig
  fallback_strategy : String := "priority"
  health_check_interval : Int := 300
  circuit_breaker : CircuitBreakerConfig := {}
deriving DecidableEq, Repr

/-- `ProviderState` (runtime, one per enabled `ProviderConfig`).  The owned
HTTP client object is out of scope; the per-size-class rotation dict
`model_indices` is an association list in insertion order. -/
structure ProviderState where
  provider : ProviderConfig
  status : ProviderStatus := .healthy
  failure_count : Nat := 0
  last_failure_time : Option Int := none
  last_success_time : Option Int := none
  model_indices : List (String × Nat) := []
deriving DecidableEq, Repr

/-- Python `dict.get(k, d)` on the rotation dict. -/
def dictGetD (l : List (String × Nat)) (k : String) (d : Nat) : Nat :=
  match l with
  | [] => d
  | (n, v) :: rest => if n == k then v else dictGetD rest k d

/-- Python `dict[k] = v`: overwrite in place, or append a new key. -/
def dictSet (l : List (String × Nat)) (k : String) (v : Nat) : List (String × Nat) :=
  match l with
  | [] => [(k, v)]
  | (n, w) :: rest => if n == k then (n, v) :: rest else (n, w) :: dictSet rest k v

/-- `ProviderState.get_next_model`: return the model at the current cursor
of `model_indices[model_type]` and advance the cursor by one modulo the
list length.  On an empty list return `none` without touching the state.
If the stored cursor were out of range Python would raise `IndexError`;
that branch is modelled as `(none, s)` and proved unreachable. -/
def ProviderState.get_next_model (s : ProviderState) (model_type : String) :
    Option String × ProviderState :=
  let models := s.provider.models.forType model_type
  if models.isEmpty then (none, s)
  else
    let current_index := dictGetD s.model_indices model_type 0
    match models.get? current_index with
    | none => (none, s)
    | some model =>
      (some model,
       { s with model_indices :=
          dictSet s.model_indices model_type ((current_index + 1) % models.length) })

/-! ### Provider manager (`provider_manager.py`) -/

/-- `ProviderManager`: the configuration plus the `providers` dict, an
association list from provider name to state in insertion order. -/
structure ProviderManager where
  config : ProviderManagerConfig
  providers : List (String × ProviderState)
deriving DecidableEq, Repr

/-- Python `self.providers.get(name)` / `name in self.providers`. -/
def alistFind (l : List (String × ProviderState)) (k : String) : Option ProviderState :=
  match l with
  | [] => none
  | (n, s) :: rest => if n == k then some s else alistFind rest k

/-- Overwrite the state stored under an existing key, keeping dict order
(Python mutates the state object in place; keys are unique). -/
def alistSet (l : List (String × ProviderState)) (k : String) (v : ProviderState) :
    List (String × ProviderState) :=
  match l with
  | [] => []
  | (n, s) :: rest =>
    if n == k then (n, v) :: alistSet rest k v else (n, s) :: alistSet rest k v

/-- `ProviderManager._initialize_providers` composed with `__init__`: one
fresh `ProviderState` per enabled provider, in configuration order.
(`${VAR}` resolution only rewrites the transport strings and is the
identity here since no environment is modelled.) -/
def ProviderManager.init (config : ProviderManagerConfig) : ProviderManager :=
  { config := config
    providers := (config.providers.filter (·.enabled)).map (fun p => (p.name, { provider := p })) }

/-- Stable insertion of a state into a list sorted by ascending priority:
the new element goes before the first strictly larger priority, after all
equal ones. -/
def insertByPriority (x : ProviderState) : List ProviderState → List ProviderState
  | [] => [x]
  | y :: ys =>
    if x.provider.priority ≤ y.provider.priority then x :: y :: ys
    else y :: insertByPriority x ys

/-- Stable sort by ascending `provider.priority`, modelling the stable
Python `available.sort(key=lambda x: x.provider.priority)`. -/
def sortByPriority : List ProviderState → List ProviderState
  | [] => []
  | x :: xs => insertByPriority x (sortByPriority xs)

/-- `ProviderManager.get_available_providers`: the healthy states in dict
order, stably sorted by ascending priority.  (The lazy start of the
background health-check task touches no provider state and is omitted.) -/
def ProviderManager.get_available_providers (m : ProviderManager) : List ProviderState :=
  sortByPriority ((m.providers.map Prod.snd).filter (fun s => s.status == .healthy))

/-- The provider-scan loop shared by `get_provider_for_model` and
`get_fallback_provider_for_model`: call `get_next_model` on each state in
order and stop at the first that yields a model, writing the advanced
rotation state back into the manager. -/
def scanProviders (m : ProviderManager) (model_type : String) :
    List ProviderState → Option (ProviderState × String) × ProviderManager
  | [] => (none, m)
  | s :: rest =>
    match s.get_next_model model_type with
    | (some model, s') =>
      (some (s', model), { m with providers := alistSet m.providers s'.provider.name s' })
    | (none, _) => scanProviders m model_type rest

/-- `ProviderManager.get_provider_for_model`. -/
def ProviderManager.get_provider_for_model (m : ProviderManager) (model_type : String) :
    Option (ProviderState × String) × ProviderManager :=
  scanProviders m model_type m.get_available_providers

/-- `ProviderManager.get_fallback_provider_for_model`: same as above but
first drops the excluded provider and then applies the fallback strategy
(`priority` keeps the sorted order; `round_robin` and `random` apply the
`shuffle` oracle standing in for `random.shuffle`). -/
def ProviderManager.get_fallback_provider_for_model (m : ProviderManager)
    (model_type : String) (exclude_provider : Option String)
    (shuffle : List ProviderState → List ProviderState) :
    Option (ProviderState × String) × ProviderManager :=
  let available := m.get_available_providers
  let available :=
    match exclude_provider with
    | some ex => available.filter (fun p => !(p.provider.name == ex))
    | none => available
  let available :=
    if m.config.fallback_strategy == "priority" then available
    else if m.config.fallback_strategy == "round_robin" then shuffle available
    else if m.config.fallback_strategy == "random" then shuffle available
    else available
  scanProviders m model_type available

/-- `ProviderManager.get_next_model_for_provider`: rotation within one
named provider; `none` if the name is unknown, the state is not healthy,
or the list for the size class is empty. -/
def ProviderManager.get_next_model_for_provider (m : ProviderManager)
    (provider_name model_type : String) :
    Option (ProviderState × String) × ProviderManager :=
  match alistFind m.providers provider_name with
  | none => (none, m)
  | some s =>
    if !(s.status == .healthy) then (none, m)
    else
      match s.get_next_model model_type with
      | (some model, s') =>
        (some (s', model), { m with providers := alistSet m.providers provider_name s' })
      | (none, _) => (none, m)

/-- `ProviderManager.get_client_for_model`, with the owned client objects
projected away: the result carries the chosen model and provider name. -/
def ProviderManager.get_client_for_model (m : ProviderManager) (model_type : String)
    (exclude_provider : Option String)
    (shuffle : List ProviderState → List ProviderState) :
    Option (String × String) × ProviderManager :=
  let (r, m') :=
    match exclude_provider with
    | some ex => m.get_fallback_provider_for_model model_type (some ex) shuffle
    | none => m.get_provider_for_model model_type
  match r with
  | some (state, model) => (some (model, state.provider.name), m')
  | none => (none, m')

/-- `ProviderManager.mark_provider_failure`: unknown names are ignored;
otherwise increment `failure_count`, stamp `last_failure_time`, and open
the circuit exactly when the new count reaches the threshold, else mark
unhealthy. -/
def ProviderManager.mark_provider_failure (m : ProviderManager) (provider_name : String)
    (now : Int) : ProviderManager :=
  match alistFind m.providers provider_name with
  | none => m
  | some state =>
    let state := { state with
      failure_count := state.failure_count + 1
      last_failure_time := some now }
    let state :=
      if state.failure_count ≥ m.config.circuit_breaker.failure_threshold then
        { state with status := .circuit_open }
      else
        { state with status := .unhealthy }
    { m with providers := alistSet m.providers provider_name state }

/-- `ProviderManager.mark_provider_success`: unknown names are ignored;
otherwise zero the failure count, stamp `last_success_time`, set healthy. -/
def ProviderManager.mark_provider_success (m : ProviderManager) (provider_name : String)
    (now : Int) : ProviderManager :=
  match alistFind m.providers provider_name with
  | none => m
  | some state =>
    let state := { state with
      failure_count := 0
      last_success_time := some now
      status := .healthy }
    { m with providers := alistSet m.providers provider_name state }

/-- One provider's view of `ProviderManager._perform_health_checks`: a
`circuit_open` state whose `last_failure_time` is truthy (set and non-zero)
and strictly older than `recovery_timeout` seconds becomes healthy with a
zero failure count; everything else is untouched. -/
def healthCheckState (cb : CircuitBreakerConfig) (now : Int) (s : ProviderState) :
    ProviderState :=
  if s.status == .circuit_open then
    match s.last_failure_time with
    | some t =>
      if !(t == 0) && now - t > cb.recovery_timeout then
        { s with status := .healthy, failure_count := 0 }
      else s
    | none => s
  else s

/-- `ProviderManager._perform_health_checks`, over every provider. -/
def ProviderManager.perform_health_checks (m : ProviderManager) (now : Int) :
    ProviderManager :=
  { m with providers := m.providers.map (fun p => (p.1, healthCheckState m.config.circuit_breaker now p.2)) }

/-- The `PUT /api/providers/{name}/toggle` endpoint body (in-memory part):
set `enabled`; on disable force `unhealthy`, on enable promote an
`unhealthy` state back to `healthy` (leaving `failure_count` as it was). -/
def ProviderManager.toggle_provider (m : ProviderManager) (provider_name : String)
    (enabled : Bool) : ProviderManager :=
  match alistFind m.providers provider_name with
  | none => m
  | some state =>
    let state := { state with provider := { state.provider with enabled := enabled } }
    let state :=
      if !enabled then { state with status := .unhealthy }
      else if state.status == .unhealthy then { state with status := .healthy }
      else state
    { m with providers := alistSet m.providers provider_name state }

/-! ### Config and model manager (`config.py`, `model_manager.py`) -/

/-- The slice of the process-wide `Config` object that the request path
reads: the optional provider manager, the legacy model names, and the
client-auth key `ANTHROPIC_API_KEY` (unset is `none`). -/
structure Config where
  provider_manager : Option ProviderManager
  big_model : String := "gpt-4o"
  middle_model : String := "gpt-4o"
  small_model : String := "gpt-4o-mini"
  anthropic_api_key : Option String := none
deriving Repr

/-- The size-class determination duplicated inside
`ModelManager.get_client_and_model` and
`ModelManager.get_next_model_for_provider`: case-insensitive substring
match `haiku` → small, `sonnet` → middle, `opus` → big, default big. -/
def modelTypeOf (claude_model : String) : String :=
  let model_lower := strLower claude_model
  if strContains model_lower "haiku" then "small"
  else if strContains model_lower "sonnet" then "middle"
  else if strContains model_lower "opus" then "big"
  else "big"

/-- `ModelManager.map_claude_model_to_openai`: passthrough prefixes, then
the size-class mapping onto the legacy BIG/MIDDLE/SMALL models. -/
def ModelManager.map_claude_model_to_openai (cfg : Config) (claude_model : String) : String :=
  if strStartsWith claude_model "gpt-" || strStartsWith claude_model "o1-" then claude_model
  else if strStartsWith claude_model "ep-" || strStartsWith claude_model "doubao-" ||
      strStartsWith claude_model "deepseek-" then claude_model
  else
    let model_lower := strLower claude_model
    if strContains model_lower "haiku" then cfg.small_model
    else if strContains model_lower "sonnet" then cfg.middle_model
    else if strContains model_lower "opus" then cfg.big_model
    else cfg.big_model

/-- `ModelManager.get_client_and_model` (client objects projected to the
provider name).  With no provider manager it synthesises the legacy
client; with one it asks `get_client_for_model` and, when that yields
nothing, falls back to the legacy client under the name
`"Legacy Fallback"` — the `try` block cannot fail here, so with a provider
manager present the result is never `none`. -/
def ModelManager.get_client_and_model (cfg : Config) (claude_model : String)
    (exclude_provider : Option String)
    (shuffle : List ProviderState → List ProviderState) :
    Option (String × String) × Config :=
  match cfg.provider_manager with
  | none =>
    (some (ModelManager.map_claude_model_to_openai cfg claude_model,
           "Legacy Claude Code Proxy"), cfg)
  | some m =>
    let model_type := modelTypeOf claude_model
    let (r, m') := m.get_client_for_model model_type exclude_provider shuffle
    let cfg' := { cfg with provider_manager := some m' }
    match r with
    | some (model_name, provider_name) => (some (model_name, provider_name), cfg')
    | none =>
      (some (ModelManager.map_claude_model_to_openai cfg claude_model,
             "Legacy Fallback"), cfg')

/-- `ModelManager.get_next_model_for_provider` (model-manager level):
rotation within the named provider for the size class of the inbound
model name. -/
def ModelManager.get_next_model_for_provider (cfg : Config) (claude_model provider_name : String) :
    Option (String × String) × Config :=
  match cfg.provider_manager with
  | none => (none, cfg)
  | some m =>
    let model_type := modelTypeOf claude_model
    let (r, m') := m.get_next_model_for_provider provider_name model_type
    let cfg' := { cfg with provider_manager := some m' }
    match r with
    | some (_, model_name) => (some (model_name, provider_name), cfg')
    | none => (none, cfg')

/-! ### The request engine (`endpoints.py`:
`handle_request_with_fallback` and `try_fallback`, non-streaming path) -/

/-- One upstream call as observed from outside: which provider and model
were hit and which request id the call carried. -/
structure UpstreamCall where
  provider : String
  model : String
  rid : Nat
deriving DecidableEq, Repr

/-- The run state threaded through the request lifecycle: the mutable
process config, the trace of upstream calls made so far, and the fresh-id
counter standing in for `uuid.uuid4()`. -/
structure RunSt where
  cfg : Config
  calls : List UpstreamCall := []
  ctr : Nat := 0

/-- Outcome of one inbound `POST /v1/messages` request. -/
inductive ReqOutcome where
  | success (provider model : String)
  | errorJson (status : Nat)
  | httpError (status : Nat)
  | outOfFuel
deriving DecidableEq, Repr

/-- Record an upstream call in the trace. -/
def recordCall (st : RunSt) (provider model : String) (rid : Nat) : RunSt :=
  { st with calls := st.calls ++ [⟨provider, model, rid⟩] }

/-- Run `mark_provider_success` guarded by `if config.provider_manager:`. -/
def markSuccessCfg (cfg : Config) (provider_name : String) (now : Int) : Config :=
  match cfg.provider_manager with
  | some m => { cfg with provider_manager := some (m.mark_provider_success provider_name now) }
  | none => cfg

/-- Run `mark_provider_failure` (the `try_fallback` call site is reached
only with a provider manager present). -/
def markFailureCfg (cfg : Config) (provider_name : String) (now : Int) : Config :=
  match cfg.provider_manager with
  | some m => { cfg with provider_manager := some (m.mark_provider_failure provider_name now) }
  | none => cfg

/-- Tail of `try_fallback` after the in-provider retry is exhausted: mark
the failed provider, probe `get_client_and_model` with the failed provider
excluded, and, when the probe yields a triple, re-enter
`handle_request_with_fallback` from the top (passed in as `recurse`);
otherwise return the original error as a JSON error response.  Note that
the probe's triple is discarded. -/
def providerFallback (recurse : RunSt → ReqOutcome × RunSt) (claude_model : String)
    (now : Int) (shuffle : List ProviderState → List ProviderState)
    (failed_provider : String) (errStatus : Nat) (st : RunSt) : ReqOutcome × RunSt :=
  let cfg2 := markFailureCfg st.cfg failed_provider now
  let (fb, cfg3) := ModelManager.get_client_and_model cfg2 claude_model (some failed_provider) shuffle
  let st3 := { st with cfg := cfg3 }
  match fb with
  | some _ => recurse st3
  | none => (.errorJson errStatus, st3)

/-- `try_fallback` (non-streaming): with no provider manager, return the
original error; otherwise first try the next model of the same provider
(one upstream call under a fresh request id), and on its failure or
absence escalate through `providerFallback`. -/
def tryFallback (recurse : RunSt → ReqOutcome × RunSt) (claude_model : String)
    (call : String → String → Option Nat) (now : Int)
    (shuffle : List ProviderState → List ProviderState)
    (failed_provider : String) (errStatus : Nat) (st : RunSt) : ReqOutcome × RunSt :=
  match st.cfg.provider_manager with
  | none => (.errorJson errStatus, st)
  | some _ =>
    let (r, cfg1) := ModelManager.get_next_model_for_provider st.cfg claude_model failed_provider
    let st1 := { st with cfg := cfg1 }
    match r with
    | some (model_name, provider_name) =>
      let rid := st1.ctr
      let st2 := recordCall { st1 with ctr := st1.ctr + 1 } provider_name model_name rid
      match call provider_name model_name with
      | none =>
        (.success provider_name model_name,
         { st2 with cfg := markSuccessCfg st2.cfg provider_name now })
      | some _ =>
        providerFallback recurse claude_model now shuffle failed_provider errStatus st2
    | none =>
      providerFallback recurse claude_model now shuffle failed_provider errStatus st1

/-- `handle_request_with_fallback` (non-streaming): generate a fresh
request id, ask the model manager for a triple (503 if none), perform the
upstream call under that id, mark success, and on an upstream
`HTTPException` enter `try_fallback`, whose escalation re-enters this
handler.  The recursion is indexed by `fuel`, since the Python source has
no bound of its own; `.outOfFuel` marks runs that exhaust it. -/
def handleRequest (claude_model : String) (call : String → String → Option Nat)
    (now : Int) (shuffle : List ProviderState → List ProviderState) :
    Nat → RunSt → ReqOutcome × RunSt
  | 0, st => (.outOfFuel, st)
  | fuel + 1, st =>
    let request_id := st.ctr
    let st := { st with ctr := st.ctr + 1 }
    let (r, cfg') := ModelManager.get_client_and_model st.cfg claude_model none shuffle
    let st := { st with cfg := cfg' }
    match r with
    | none => (.httpError 503, st)
    | some (model_name, provider_name) =>
      let st := recordCall st provider_name model_name request_id
      match call provider_name model_name with
      | none =>
        (.success provider_name model_name,
         { st with cfg := markSuccessCfg st.cfg provider_name now })
      | some status =>
        tryFallback (handleRequest claude_model call now shuffle fuel)
          claude_model call now shuffle provider_name status st

/-! ### Client authentication (`endpoints.py`: `validate_api_key`,
`config.py`: `Config.validate_client_api_key`) -/

/-- `validate_api_key` as a function of the configured
`ANTHROPIC_API_KEY` and the two request headers (either may be absent).
Returns `none` when the request passes and `some 401` when the handler
raises `HTTPException(401)`.  Mirrors the source exactly: the key is
taken from `x-api-key` when that header is truthy, else from
`Authorization` when it is truthy and starts with `"Bearer "`, with every
occurrence of `"Bearer "` removed; validation is skipped when
`ANTHROPIC_API_KEY` is falsy. -/
def validate_api_key (anthropic_api_key x_api_key authorization : Option String) :
    Option Nat :=
  let client_api_key : Option String :=
    if truthy x_api_key then x_api_key
    else
      match authorization with
      | some a =>
        if !(a == "") && strStartsWith a "Bearer " then
          some (strReplace a "Bearer " "")
        else none
      | none => none
  if !(truthy anthropic_api_key) then none
  else if !(truthy client_api_key) then some 401
  else if client_api_key.getD "" == anthropic_api_key.getD "" then none
  else some 401

/-! ### Association-list lemmas -/

lemma alistFind_alistSet_self (l : List (String × ProviderState)) (k : String)
    (v : ProviderState) (h : (alistFind l k).isSome) :
    alistFind (alistSet l k v) k = some v := by
  induction l with
  | nil => simp [alistFind] at h
  | cons p rest ih =>
    rcases p with ⟨n, s⟩
    by_cases hk : (n == k) = true
    · simp [alistSet, alistFind, hk]
    · simp only [alistFind, hk, Bool.false_eq_true, if_false] at h
      simp only [alistSet, hk, Bool.false_eq_true, if_false, alistFind]
      exact ih h

lemma alistFind_mapSnd (l : List (String × ProviderState)) (k : String)
    (f : ProviderState → ProviderState) :
    alistFind (l.map (fun p => (p.1, f p.2))) k = (alistFind l k).map f := by
  induction l with
  | nil => simp [alistFind]
  | cons p rest ih =>
    by_cases hk : (p.1 == k) = true
    · simp [alistFind, hk]
    · simp [alistFind, hk, ih]

lemma mem_alistSet (l : List (String × ProviderState)) (k : String) (v : ProviderState)
    (p : String × ProviderState) (h : p ∈ alistSet l k v) : p.2 = v ∨ p ∈ l := by
  induction l with
  | nil => simp [alistSet] at h
  | cons q rest ih =>
    rcases q with ⟨n, s⟩
    by_cases hk : (n == k) = true
    · simp only [alistSet, hk, if_true, List.mem_cons] at h
      rcases h with h | h
      · left; rw [h]
      · rcases ih h with h' | h'
        · left; exact h'
        · right; exact List.mem_cons_of_mem _ h'
    · simp only [alistSet, hk, Bool.false_eq_true, if_false, List.mem_cons] at h
      rcases h with h | h
      · right; rw [h]; exact List.mem_cons_self _ _
      · rcases ih h with h' | h'
        · left; exact h'
        · right; exact List.mem_cons_of_mem _ h'

/-! ### C2: failure marking and the circuit-breaker boundary -/

/-- C2 — confirmed.  `mark_provider_failure` on a known provider
increments `failure_count`, stamps `last_failure_time := now`, and sets
`status = circuit_open` exactly when the incremented count has reached
`failure_threshold`; for any smaller count the status becomes
`unhealthy`.  In particular the circuit opens on the transition from
`failure_threshold - 1` to `failure_threshold`, not one failure earlier
(the status is then `unhealthy`) and not one later. -/
theorem mark_provider_failure_threshold_boundary (m : ProviderManager) (name : String)
    (now : Int) (s : ProviderState) (h : alistFind m.providers name = some s) :
    ∃ s', alistFind (m.mark_provider_failure name now).providers name = some s' ∧
      s'.failure_count = s.failure_count + 1 ∧
      s'.last_failure_time = some now ∧
      (s'.status = .circuit_open ↔
        m.config.circuit_breaker.failure_threshold ≤ s.failure_count + 1) ∧
      (s'.status = .unhealthy ↔
        s.failure_count + 1 < m.config.circuit_breaker.failure_threshold) := by
  unfold ProviderManager.mark_provider_failure
  rw [h]
  by_cases hth : m.config.circuit_breaker.failure_threshold ≤ s.failure_count + 1
  · simp only [ge_iff_le, hth, if_true]
    exact ⟨_, alistFind_alistSet_self _ _ _ (by simp [h]), rfl, rfl, by simp,
      by simpa using Nat.not_lt.mpr hth⟩
  · simp only [ge_iff_le, hth, if_false]
    exact ⟨_, alistFind_alistSet_self _ _ _ (by simp [h]), rfl, rfl, by simp [hth],
      by simpa using Nat.lt_of_not_le hth⟩

/-- Fixture for the C2 witness: one provider that has already failed four
times against the default threshold of five. -/
def mgrC2 : ProviderManager :=
  { config := { providers := [{ name := "A", priority := 1 }] }
    providers := [("A", { provider := { name := "A", priority := 1 }
                          status := .unhealthy
                          failure_count := 4
                          last_failure_time := some 7 })] }

/-- Witness for C2 at a concrete input: the fifth failure is exactly the
one that opens the circuit. -/
theorem mark_provider_failure_threshold_boundary_witness :
    ∃ s', alistFind ((mgrC2.mark_provider_failure "A" 9).providers) "A" = some s' ∧
      s'.failure_count = 4 + 1 ∧
      s'.last_failure_time = some 9 ∧
      (s'.status = .circuit_open ↔ mgrC2.config.circuit_breaker.failure_threshold ≤ 4 + 1) ∧
      (s'.status = .unhealthy ↔ 4 + 1 < mgrC2.config.circuit_breaker.failure_threshold) :=
  mark_provider_failure_threshold_boundary mgrC2 "A" 9
    { provider := { name := "A", priority := 1 }
      status := .unhealthy
      failure_count := 4
      last_failure_time := some 7 } (by decide)

/-! ### C10: marking an unknown provider is a no-op -/

/-- C10 — confirmed.  `mark_provider_failure` and `mark_provider_success`
with a name that is not in the provider map return the manager unchanged:
no error, and every provider's state (status, counters, timestamps,
rotation cursors) is exactly as before. -/
theorem mark_unknown_provider_is_noop (m : ProviderManager) (name : String) (now : Int)
    (h : alistFind m.providers name = none) :
    m.mark_provider_failure name now = m ∧ m.mark_provider_success name now = m := by
  unfold ProviderManager.mark_provider_failure ProviderManager.mark_provider_success
  rw [h]
  exact ⟨rfl, rfl⟩

/-- Witness for C10 at a concrete input. -/
theorem mark_unknown_provider_is_noop_witness :
    mgrC2.mark_provider_failure "nope" 3 = mgrC2 ∧
      mgrC2.mark_provider_success "nope" 3 = mgrC2 :=
  mark_unknown_provider_is_noop mgrC2 "nope" 3 (by decide)

/-! ### C4: the health sweep and the recovery boundary -/

/-- Fixture for C4: one provider whose circuit opened at time 100 with the
default `recovery_timeout` of 60 seconds. -/
def mgrC4 : ProviderManager :=
  { config := { providers := [{ name := "A", priority := 1, models := { big := ["m1"] } }] }
    providers := [("A", { provider := { name := "A", priority := 1,
                                        models := { big := ["m1"] } }
                          status := .circuit_open
                          failure_count := 5
                          last_failure_time := some 100 })] }

/-- Counterexample for C4.  At `now = 160` the last failure lies exactly
`recovery_timeout = 60` seconds in the past, so the claim's condition
`now - last_failure_time ≥ recovery_timeout` holds, yet the sweep leaves
the provider `circuit_open`: the source compares with a strict `>`
(`time.time() - state.last_failure_time > recovery_timeout`). -/
theorem health_sweep_boundary_counterexample :
    (160 : Int) - 100 ≥ mgrC4.config.circuit_breaker.recovery_timeout ∧
      (alistFind ((mgrC4.perform_health_checks 160).providers) "A").map
        (fun s => s.status) = some .circuit_open := by
  constructor
  · decide
  · rfl

/-- C4 — amended.  On a health-sweep tick, a `circuit_open` provider whose
`last_failure_time` is set (and non-zero, Python truthiness) and strictly
more than `recovery_timeout` seconds old becomes `healthy` with
`failure_count = 0`; a provider at exactly the timeout boundary stays as
it is, and every `unhealthy` provider is left unchanged by the sweep. -/
theorem health_sweep_strict_recovery (m : ProviderManager) (now : Int) (name : String)
    (s : ProviderState) (h : alistFind m.providers name = some s) :
    (∀ t : Int, s.status = .circuit_open → s.last_failure_time = some t → ¬(t = 0) →
      now - t > m.config.circuit_breaker.recovery_timeout →
      alistFind ((m.perform_health_checks now).providers) name =
        some { s with status := .healthy, failure_count := 0 }) ∧
    (s.status = .unhealthy →
      alistFind ((m.perform_health_checks now).providers) name = some s) := by
  constructor
  · intro t hst hlf ht hgt
    unfold ProviderManager.perform_health_checks
    rw [alistFind_mapSnd, h]
    simp [healthCheckState, hst, hlf, ht, hgt]
  · intro hst
    unfold ProviderManager.perform_health_checks
    rw [alistFind_mapSnd, h]
    simp [healthCheckState, hst]

/-- Witness for the amended C4 at a concrete input: one second past the
boundary the sweep closes the circuit. -/
theorem health_sweep_strict_recovery_witness :
    alistFind ((mgrC4.perform_health_checks 161).providers) "A" =
      some { provider := { name := "A", priority := 1, models := { big := ["m1"] } }
             status := .healthy
             failure_count := 0
             last_failure_time := some 100 } :=
  (health_sweep_strict_recovery mgrC4 161 "A"
      { provider := { name := "A", priority := 1, models := { big := ["m1"] } }
        status := .circuit_open
        failure_count := 5
        last_failure_time := some 100 } (by decide)).1
    100 rfl rfl (by decide) (by decide)

/-! ### C3: the healthy-implies-zero-failures invariant -/

/-- Counterexample for C3.  Reachable through the claim's own operation
set: one failure (status `unhealthy`, count 1) followed by the admin
toggle with `enabled = true` yields a provider that is `healthy` with
`failure_count = 1` — the toggle promotes `unhealthy` back to `healthy`
without clearing the counter. -/
theorem toggle_breaks_healthy_zero_invariant :
    (alistFind
        (((ProviderManager.init
              { providers := [{ name := "A", priority := 1,
                                models := { big := ["m1"] } }] }).mark_provider_failure
            "A" 10).toggle_provider "A" true).providers "A").map
      (fun s => (s.status, s.failure_count)) = some (.healthy, 1) := by
  rfl

/-- The state-transforming operations of the claim other than the admin
toggle: failure marking, success marking, and a health-sweep tick. -/
inductive AdminOp where
  | fail (name : String) (now : Int)
  | succeed (name : String) (now : Int)
  | sweep (now : Int)

/-- Apply one operation to the manager. -/
def applyOp (m : ProviderManager) : AdminOp → ProviderManager
  | .fail name now => m.mark_provider_failure name now
  | .succeed name now => m.mark_provider_success name now
  | .sweep now => m.perform_health_checks now

/-- Apply a sequence of operations. -/
def runOps (m : ProviderManager) : List AdminOp → ProviderManager
  | [] => m
  | op :: ops => runOps (applyOp m op) ops

/-- The invariant of the claim: every healthy provider has a zero failure
count. -/
def HealthyZero (m : ProviderManager) : Prop :=
  ∀ p ∈ m.providers, p.2.status = .healthy → p.2.failure_count = 0

lemma healthyZero_applyOp (m : ProviderManager) (op : AdminOp) (h : HealthyZero m) :
    HealthyZero (applyOp m op) := by
  cases op with
  | fail name now =>
    simp only [applyOp, ProviderManager.mark_provider_failure]
    cases hf : alistFind m.providers name with
    | none => exact h
    | some s =>
      intro p hp
      rcases mem_alistSet _ _ _ _ hp with hv | hold
      · intro hst
        rw [hv] at hst
        by_cases hth : s.failure_count + 1 ≥ m.config.circuit_breaker.failure_threshold <;>
          simp [hth] at hst
      · exact h p hold
  | succeed name now =>
    simp only [applyOp, ProviderManager.mark_provider_success]
    cases hf : alistFind m.providers name with
    | none => exact h
    | some s =>
      intro p hp
      rcases mem_alistSet _ _ _ _ hp with hv | hold
      · intro _
        rw [hv]
      · exact h p hold
  | sweep now =>
    intro p hp
    simp only [applyOp, ProviderManager.perform_health_checks, List.mem_map] at hp
    obtain ⟨q, hq, hrw⟩ := hp
    subst hrw
    simp only [healthCheckState]
    by_cases hst : (q.2.status == ProviderStatus.circuit_open) = true
    · simp only [hst, if_true]
      cases hlf : q.2.last_failure_time with
      | none =>
        intro habs
        rw [beq_iff_eq] at hst
        rw [hst] at habs
        exact absurd habs (by decide)
      | some t =>
        by_cases hc : (!(t == 0) && decide (now - t > m.config.circuit_breaker.recovery_timeout)) = true
        · simp [hc]
        · simp only [hc, Bool.false_eq_true, if_false]
          intro habs
          rw [beq_iff_eq] at hst
          rw [hst] at habs
          exact absurd habs (by decide)
    · simp only [hst, Bool.false_eq_true, if_false]
      exact h q hq

lemma healthyZero_runOps (m : ProviderManager) (ops : List AdminOp) (h : HealthyZero m) :
    HealthyZero (runOps m ops) := by
  induction ops generalizing m with
  | nil => exact h
  | cons op ops ih => exact ih _ (healthyZero_applyOp m op h)

/-- C3 — amended.  In every state reachable from construction through any
sequence of `mark_provider_failure`, `mark_provider_success`, and
health-sweep ticks, every provider with `status = healthy` has
`failure_count = 0`.  (The admin toggle endpoint, included in the claim's
operation list, violates the invariant: see the counterexample.) -/
theorem healthy_zero_invariant_without_toggle (cfg : ProviderManagerConfig)
    (ops : List AdminOp) : HealthyZero (runOps (ProviderManager.init cfg) ops) := by
  have hbase : HealthyZero (ProviderManager.init cfg) := by
    intro p hp
    simp only [ProviderManager.init, List.mem_map] at hp
    obtain ⟨q, _, hrw⟩ := hp
    subst hrw
    intro _
    rfl
  exact healthyZero_runOps _ ops hbase

/-- Witness for the amended C3 at a concrete input: a failure, a sweep and
a success starting from a one-provider configuration. -/
theorem healthy_zero_invariant_without_toggle_witness :
    HealthyZero (runOps
      (ProviderManager.init
        { providers := [{ name := "A", priority := 1, models := { big := ["m1"] } }] })
      [.fail "A" 10, .sweep 200, .succeed "A" 300]) :=
  healthy_zero_invariant_without_toggle
    { providers := [{ name := "A", priority := 1, models := { big := ["m1"] } }] }
    [.fail "A" 10, .sweep 200, .succeed "A" 300]

/-! ### C6: per-provider model rotation -/

lemma dictGetD_dictSet_self (l : List (String × Nat)) (k : String) (v d : Nat) :
    dictGetD (dictSet l k v) k d = v := by
  induction l with
  | nil => simp [dictSet, dictGetD]
  | cons p rest ih =>
    rcases p with ⟨n, w⟩
    by_cases hk : (n == k) = true
    · simp [dictSet, dictGetD, hk]
    · simp [dictSet, dictGetD, hk, ih]

lemma dictGetD_dictSet_ne (l : List (String × Nat)) (k k' : String) (v d : Nat)
    (h : (k' == k) = false) :
    dictGetD (dictSet l k v) k' d = dictGetD l k' d := by
  have hkk : (k == k') = false := by
    cases hx : k == k'
    · rfl
    · rw [beq_iff_eq] at hx
      rw [hx] at h
      simp at h
  induction l with
  | nil => simp [dictSet, dictGetD, hkk]
  | cons p rest ih =>
    rcases p with ⟨n, w⟩
    by_cases hk : (n == k) = true
    · have hnk : (n == k') = false := by
        rw [beq_iff_eq] at hk
        rw [hk]
        exact hkk
      simp [dictSet, dictGetD, hk, hnk]
    · by_cases hnk : (n == k') = true
      · simp [dictSet, dictGetD, hk, hnk]
      · simp [dictSet, dictGetD, hk, hnk, ih]

/-- The state left behind by a successful `get_next_model` call: the
cursor for the size class advances by one modulo the list length. -/
def advanceCursor (s : ProviderState) (t : String) : ProviderState :=
  { s with model_indices := dictSet s.model_indices t ((dictGetD s.model_indices t 0 + 1) % (s.provider.models.forType t).length) }

lemma get_next_model_step (s : ProviderState) (t : String)
    (hne : s.provider.models.forType t ≠ [])
    (hi : dictGetD s.model_indices t 0 < (s.provider.models.forType t).length) :
    s.get_next_model t =
      (some ((s.provider.models.forType t).get ⟨dictGetD s.model_indices t 0, hi⟩),
       advanceCursor s t) := by
  have hmodel : (s.provider.models.forType t).get? (dictGetD s.model_indices t 0) =
      some ((s.provider.models.forType t).get ⟨dictGetD s.model_indices t 0, hi⟩) :=
    List.get?_eq_get hi
  unfold ProviderState.get_next_model advanceCursor
  simp only [List.isEmpty_iff, hne, if_false, hmodel]

/-- Repeated calls to `get_next_model` for one size class, collecting the
returned models. -/
def rotateCalls (model_type : String) : Nat → ProviderState → List (Option String) × ProviderState
  | 0, s => ([], s)
  | n + 1, s =>
    ((s.get_next_model model_type).1 ::
        (rotateCalls model_type n (s.get_next_model model_type).2).1,
     (rotateCalls model_type n (s.get_next_model model_type).2).2)

lemma rotateCalls_cyclic (t : String) (n : Nat) :
    ∀ s : ProviderState,
      s.provider.models.forType t ≠ [] →
      dictGetD s.model_indices t 0 < (s.provider.models.forType t).length →
      (rotateCalls t n s).1 =
        (List.range n).map (fun k =>
          (s.provider.models.forType t).get? ((dictGetD s.model_indices t 0 + k) %
            (s.provider.models.forType t).length)) := by
  induction n with
  | zero => intro s _ _; simp [rotateCalls]
  | succ n ih =>
    intro s hne hi
    have hstep := get_next_model_step s t hne hi
    have hlen : 0 < (s.provider.models.forType t).length := List.length_pos.mpr hne
    have hcur' : (dictGetD s.model_indices t 0 + 1) % (s.provider.models.forType t).length <
        (s.provider.models.forType t).length := Nat.mod_lt _ hlen
    have hrec := ih (advanceCursor s t) (by simpa [advanceCursor] using hne)
      (by simpa [advanceCursor, dictGetD_dictSet_self] using hcur')
    simp only [rotateCalls, hstep]
    rw [hrec]
    simp only [advanceCursor, dictGetD_dictSet_self]
    rw [List.range_succ_eq_map, List.map_cons, List.map_map]
    congr 1
    · rw [Nat.add_zero, Nat.mod_eq_of_lt hi]
      exact (List.get?_eq_get hi).symm
    · apply List.map_congr_left
      intro k _
      simp only [Function.comp_apply]
      congr 1
      rw [Nat.mod_add_mod]
      congr 1
      omega

/-- C6 — confirmed.  For a provider state whose model list for a size
class is non-empty and whose cursor is in range, `get_next_model` returns
the model at the current cursor and stores `(cursor + 1) mod length`,
which is again in `[0, length)`; cursors of other size classes and all
non-rotation fields are untouched, and `n` consecutive calls return the
models in cyclic order without skips. -/
theorem get_next_model_cyclic_rotation (s : ProviderState) (t : String)
    (hne : s.provider.models.forType t ≠ [])
    (hi : dictGetD s.model_indices t 0 < (s.provider.models.forType t).length) :
    (s.get_next_model t).1 =
        (s.provider.models.forType t).get? (dictGetD s.model_indices t 0) ∧
      ((s.get_next_model t).1).isSome ∧
      dictGetD ((s.get_next_model t).2).model_indices t 0 =
        (dictGetD s.model_indices t 0 + 1) % (s.provider.models.forType t).length ∧
      (dictGetD s.model_indices t 0 + 1) % (s.provider.models.forType t).length <
        (s.provider.models.forType t).length ∧
      (∀ t', (t' == t) = false →
        dictGetD ((s.get_next_model t).2).model_indices t' 0 =
          dictGetD s.model_indices t' 0) ∧
      ((s.get_next_model t).2).provider = s.provider ∧
      ((s.get_next_model t).2).status = s.status ∧
      ((s.get_next_model t).2).failure_count = s.failure_count ∧
      (∀ n, (rotateCalls t n s).1 =
        (List.range n).map (fun k =>
          (s.provider.models.forType t).get? ((dictGetD s.model_indices t 0 + k) %
            (s.provider.models.forType t).length))) := by
  have hstep := get_next_model_step s t hne hi
  have hlen : 0 < (s.provider.models.forType t).length := List.length_pos.mpr hne
  refine ⟨?_, ?_, ?_, Nat.mod_lt _ hlen, ?_, ?_, ?_, ?_, fun n => rotateCalls_cyclic t n s hne hi⟩
  · rw [hstep, List.get?_eq_get hi]
  · rw [hstep]
    rfl
  · rw [hstep]
    simp [advanceCursor, dictGetD_dictSet_self]
  · intro t' ht'
    rw [hstep]
    simp [advanceCursor, dictGetD_dictSet_ne _ _ _ _ _ ht']
  · rw [hstep]
    rfl
  · rw [hstep]
    rfl
  · rw [hstep]
    rfl

/-- Fixture for the C6 witness: three models with the cursor at 1. -/
def stC6 : ProviderState :=
  { provider := { name := "A", priority := 1, models := { big := ["x", "y", "z"] } }
    model_indices := [("big", 1)] }

/-- Witness for C6 at a concrete input: from cursor 1, six consecutive
calls return `y z x y z x` — cyclic, without skips. -/
theorem get_next_model_cyclic_rotation_witness :
    (rotateCalls "big" 6 stC6).1 =
      [some "y", some "z", some "x", some "y", some "z", some "x"] := by
  have h := get_next_model_cyclic_rotation stC6 "big" (by decide) (by decide)
  obtain ⟨-, -, -, -, -, -, -, -, hcyc⟩ := h
  rw [hcyc 6]
  decide

/-! ### C9: client authentication -/

/-- The acceptance criterion as the claim words it: the request presents
the matching key in the `x-api-key` header or in the
`Authorization: Bearer …` header. -/
def presentsMatchingKey (key : String) (x_api_key authorization : Option String) : Bool :=
  x_api_key == some key || authorization == some ("Bearer " ++ key)

/-- Counterexample for C9.  With `ANTHROPIC_API_KEY = "secret"`, a request
carrying a wrong `x-api-key` together with a correct
`Authorization: Bearer secret` presents the matching key in one of the two
headers, so the claim accepts it — but the source consults `Authorization`
only when `x-api-key` is absent (`if x_api_key: … elif authorization…`)
and rejects with 401. -/
theorem auth_header_ignored_when_x_api_key_present :
    presentsMatchingKey "secret" (some "wrong") (some "Bearer secret") = true ∧
      validate_api_key (some "secret") (some "wrong") (some "Bearer secret") = some 401 := by
  decide

lemma truthy_none : truthy none = false := rfl

lemma truthy_some (s : String) : truthy (some s) = !(s == "") := rfl

/-- The amended acceptance criterion, following the source's precedence:
authentication is disabled when `ANTHROPIC_API_KEY` is unset or empty;
otherwise the key is taken from `x-api-key` when present and non-empty,
else from a non-empty `Authorization` header starting with `"Bearer "`
with every occurrence of `"Bearer "` removed, and must equal the
configured key. -/
def amendedAccepts (anthropic x_api_key authorization : Option String) : Bool :=
  !(truthy anthropic) ||
  (truthy x_api_key && (x_api_key.getD "" == anthropic.getD "")) ||
  (!(truthy x_api_key) &&
    (match authorization with
     | some a => !(a == "") && strStartsWith a "Bearer " &&
         (strReplace a "Bearer " "" == anthropic.getD "")
     | none => false))

/-- C9 — amended.  The outcome of the auth check is always pass or 401,
and a request passes exactly under `amendedAccepts`: `x-api-key` takes
precedence, so a matching `Authorization` header cannot rescue a wrong
`x-api-key`. -/
theorem validate_api_key_characterization (anthropic x_api_key authorization : Option String) :
    (validate_api_key anthropic x_api_key authorization = none ∨
       validate_api_key anthropic x_api_key authorization = some 401) ∧
    (validate_api_key anthropic x_api_key authorization = none ↔
       amendedAccepts anthropic x_api_key authorization = true) := by
  constructor
  · simp only [validate_api_key]
    repeat' first | exact Or.inl rfl | exact Or.inr rfl | split
  · by_cases ha : truthy anthropic = true
    · have hkey : (anthropic.getD "" == "") = false := by
        cases anthropic with
        | none => simp [truthy] at ha
        | some k =>
          simp only [truthy, Bool.not_eq_true'] at ha
          simpa using ha
      by_cases hx : truthy x_api_key = true
      · by_cases heq : (x_api_key.getD "" == anthropic.getD "") = true
        · simp [validate_api_key, amendedAccepts, ha, hx, heq]
        · have heq' : (x_api_key.getD "" == anthropic.getD "") = false := by
            simpa using heq
          simp [validate_api_key, amendedAccepts, ha, hx, heq']
      · have hx' : truthy x_api_key = false := by simpa using hx
        cases authorization with
        | none => simp [validate_api_key, amendedAccepts, ha, hx', truthy_none, truthy_some]
        | some a =>
          by_cases hemp : (a == "") = true
          · simp [validate_api_key, amendedAccepts, ha, hx', hemp, truthy_none, truthy_some]
          · have hemp' : (a == "") = false := by simpa using hemp
            by_cases hbear : strStartsWith a "Bearer " = true
            · by_cases heq : (strReplace a "Bearer " "" == anthropic.getD "") = true
              · have hr : strReplace a "Bearer " "" = anthropic.getD "" := by
                  rwa [beq_iff_eq] at heq
                have hrne : (strReplace a "Bearer " "" == "") = false := by
                  rw [beq_eq_false_iff_ne, hr]
                  rw [beq_eq_false_iff_ne] at hkey
                  exact hkey
                simp [validate_api_key, amendedAccepts, ha, hx', hemp', hbear, heq, hrne,
                  truthy_none, truthy_some]
              · have heq' : (strReplace a "Bearer " "" == anthropic.getD "") = false := by
                  simpa using heq
                by_cases hre : (strReplace a "Bearer " "" == "") = true
                · simp [validate_api_key, amendedAccepts, ha, hx', hemp', hbear, heq', hre,
                    truthy_none, truthy_some]
                · have hre' : (strReplace a "Bearer " "" == "") = false := by
                    simpa using hre
                  simp [validate_api_key, amendedAccepts, ha, hx', hemp', hbear, heq', hre',
                    truthy_none, truthy_some]
            · have hbear' : strStartsWith a "Bearer " = false := by simpa using hbear
              simp [validate_api_key, amendedAccepts, ha, hx', hemp', hbear', truthy_none, truthy_some]
    · have ha' : truthy anthropic = false := by simpa using ha
      simp [validate_api_key, amendedAccepts, ha']

/-! ### C5: priority selection -/

/-- Ascending priority, the sort key of `get_available_providers`. -/
def leP (a b : ProviderState) : Prop :=
  a.provider.priority ≤ b.provider.priority

lemma insertByPriority_perm (x : ProviderState) :
    ∀ l : List ProviderState, (insertByPriority x l).Perm (x :: l) := by
  intro l
  induction l with
  | nil => exact List.Perm.refl _
  | cons y ys ih =>
    unfold insertByPriority
    split
    · exact List.Perm.refl _
    · exact (ih.cons y).trans (List.Perm.swap x y ys)

lemma sortByPriority_perm : ∀ l : List ProviderState, (sortByPriority l).Perm l := by
  intro l
  induction l with
  | nil => exact List.Perm.refl _
  | cons x xs ih =>
    exact (insertByPriority_perm x (sortByPriority xs)).trans (ih.cons x)

lemma mem_insertByPriority {z x : ProviderState} {l : List ProviderState} :
    z ∈ insertByPriority x l ↔ z = x ∨ z ∈ l := by
  rw [(insertByPriority_perm x l).mem_iff, List.mem_cons]

lemma insertByPriority_pairwise (x : ProviderState) :
    ∀ l : List ProviderState, List.Pairwise leP l →
      List.Pairwise leP (insertByPriority x l) := by
  intro l
  induction l with
  | nil => intro _; exact List.pairwise_singleton _ _
  | cons y ys ih =>
    intro h
    unfold insertByPriority
    split
    · rename_i hxy
      refine List.Pairwise.cons ?_ h
      intro z hz
      rcases List.mem_cons.mp hz with hz | hz
      · rw [hz]
        exact hxy
      · exact le_trans hxy (List.rel_of_pairwise_cons h hz)
    · rename_i hxy
      have hyx : leP y x := le_of_lt (lt_of_not_le hxy)
      refine List.Pairwise.cons ?_ (ih h.tail)
      intro z hz
      rcases mem_insertByPriority.mp hz with hz | hz
      · rw [hz]
        exact hyx
      · exact List.rel_of_pairwise_cons h hz

lemma sortByPriority_pairwise : ∀ l : List ProviderState,
    List.Pairwise leP (sortByPriority l) := by
  intro l
  induction l with
  | nil => exact List.Pairwise.nil
  | cons x xs ih => exact insertByPriority_pairwise x (sortByPriority xs) ih

lemma insertByPriority_filter_priority (x : ProviderState) (p : Int) :
    ∀ l : List ProviderState,
      (insertByPriority x l).filter (fun s => s.provider.priority == p) =
        (x :: l).filter (fun s => s.provider.priority == p) := by
  intro l
  induction l with
  | nil => rfl
  | cons y ys ih =>
    unfold insertByPriority
    split
    · rfl
    · rename_i hxy
      have hyx : y.provider.priority < x.provider.priority := lt_of_not_le hxy
      by_cases hyp : (y.provider.priority == p) = true
      · by_cases hxp : (x.provider.priority == p) = true
        · rw [beq_iff_eq] at hyp hxp
          rw [hxp] at hyx
          rw [hyp] at hyx
          exact absurd hyx (lt_irrefl p)
        · have hxp' : (x.provider.priority == p) = false := by simpa using hxp
          simp only [List.filter_cons, hyp, hxp', if_true, Bool.false_eq_true, if_false] at ih ⊢
          rw [ih]
      · have hyp' : (y.provider.priority == p) = false := by simpa using hyp
        by_cases hxp : (x.provider.priority == p) = true
        · simp only [List.filter_cons, hyp', hxp, Bool.false_eq_true, if_false, if_true] at ih ⊢
          rw [ih]
        · have hxp' : (x.provider.priority == p) = false := by simpa using hxp
          simp only [List.filter_cons, hyp', hxp', Bool.false_eq_true, if_false] at ih ⊢
          rw [ih]

lemma sortByPriority_filter_priority (p : Int) :
    ∀ l : List ProviderState,
      (sortByPriority l).filter (fun s => s.provider.priority == p) =
        l.filter (fun s => s.provider.priority == p) := by
  intro l
  induction l with
  | nil => rfl
  | cons x xs ih =>
    show (insertByPriority x (sortByPriority xs)).filter _ = _
    rw [insertByPriority_filter_priority x p (sortByPriority xs)]
    simp only [List.filter_cons]
    rw [ih]

lemma filter_swapP (p q : ProviderState → Bool) (l : List ProviderState) :
    (l.filter p).filter q = (l.filter q).filter p := by
  rw [List.filter_filter, List.filter_filter]
  exact List.filter_congr (fun a _ => by rw [Bool.and_comm])

/-- The cursor-in-range invariant used to rule out the `IndexError` branch
of `get_next_model` (established for all reachable states by C6). -/
def cursorOk (t : String) (s : ProviderState) : Prop :=
  s.provider.models.forType t = [] ∨
    dictGetD s.model_indices t 0 < (s.provider.models.forType t).length

lemma get_next_model_empty (s : ProviderState) (t : String)
    (h : s.provider.models.forType t = []) : s.get_next_model t = (none, s) := by
  unfold ProviderState.get_next_model
  simp [h]

lemma get_next_model_some_of (s : ProviderState) (t : String) (hc : cursorOk t s)
    (hne : ¬(s.provider.models.forType t = [])) :
    ∃ model, s.get_next_model t = (some model, advanceCursor s t) := by
  rcases hc with hc | hc
  · exact absurd hc hne
  · exact ⟨_, get_next_model_step s t hne hc⟩

lemma scanProviders_none_iff (m : ProviderManager) (t : String) :
    ∀ l : List ProviderState, (∀ s ∈ l, cursorOk t s) →
      ((scanProviders m t l).1 = none ↔ ∀ s ∈ l, s.provider.models.forType t = []) := by
  intro l
  induction l with
  | nil => intro _; simp [scanProviders]
  | cons s rest ih =>
    intro hcur
    by_cases hne : s.provider.models.forType t = []
    · simp only [scanProviders, get_next_model_empty s t hne]
      rw [ih (fun a ha => hcur a (List.mem_cons_of_mem _ ha))]
      simp [List.forall_mem_cons, hne]
    · obtain ⟨model, hstep⟩ :=
        get_next_model_some_of s t (hcur s (List.mem_cons_self _ _)) hne
      simp only [scanProviders, hstep]
      simp [List.forall_mem_cons, hne]

lemma scanProviders_some (m : ProviderManager) (t : String) :
    ∀ l : List ProviderState, (∀ s ∈ l, cursorOk t s) →
      ∀ (s' : ProviderState) (model : String),
      (scanProviders m t l).1 = some (s', model) →
      ∃ l1 c l2, l = l1 ++ c :: l2 ∧ (∀ s ∈ l1, s.provider.models.forType t = []) ∧
        ¬(c.provider.models.forType t = []) ∧ c.get_next_model t = (some model, s') := by
  intro l
  induction l with
  | nil => intro _ s' model h; simp [scanProviders] at h
  | cons s rest ih =>
    intro hcur s' model h
    by_cases hne : s.provider.models.forType t = []
    · simp only [scanProviders, get_next_model_empty s t hne] at h
      obtain ⟨l1, c, l2, hsplit, hempty1, hc, hcall⟩ :=
        ih (fun a ha => hcur a (List.mem_cons_of_mem _ ha)) s' model h
      refine ⟨s :: l1, c, l2, by rw [hsplit]; rfl, ?_, hc, hcall⟩
      intro a ha
      rcases List.mem_cons.mp ha with ha | ha
      · rw [ha]; exact hne
      · exact hempty1 a ha
    · obtain ⟨mdl, hstep⟩ :=
        get_next_model_some_of s t (hcur s (List.mem_cons_self _ _)) hne
      simp only [scanProviders, hstep] at h
      have hinj : mdl = model ∧ advanceCursor s t = s' := by
        have := h
        simp at this
        exact ⟨this.2, this.1⟩
      refine ⟨[], s, rest, rfl, by simp, hne, ?_⟩
      rw [hstep, hinj.1, hinj.2]

lemma get_next_model_provider_eq (s : ProviderState) (t : String) :
    ((s.get_next_model t).2).provider = s.provider := by
  by_cases h : (s.provider.models.forType t).isEmpty = true
  · simp [ProviderState.get_next_model, h]
  · cases hg : (s.provider.models.forType t)[dictGetD s.model_indices t 0]? <;>
      simp [ProviderState.get_next_model, h, List.get?_eq_getElem?, hg]

instance (t : String) (s : ProviderState) : Decidable (cursorOk t s) :=
  inferInstanceAs (Decidable (_ ∨ _))

/-- The providers the claim says selection considers: healthy states whose
model list for the size class is non-empty, in configuration order. -/
def candidates (m : ProviderManager) (t : String) : List ProviderState :=
  ((m.providers.map Prod.snd).filter (fun s => s.status == .healthy)).filter
    (fun s => !(s.provider.models.forType t).isEmpty)

/-- C5 — amended.  Under the priority strategy, selection considers
exactly the healthy providers with a non-empty model list for the size
class; it returns `none` iff there is no such provider, and otherwise the
chosen provider has minimal priority among them with ties broken by
configuration order (the chosen provider is the first of the candidates
at its priority), not by provider name. -/
theorem get_provider_for_model_priority_characterization (m : ProviderManager) (t : String)
    (hcur : ∀ s ∈ m.providers.map Prod.snd, cursorOk t s) :
    ((m.get_provider_for_model t).1 = none ↔ candidates m t = []) ∧
    (∀ s' model, (m.get_provider_for_model t).1 = some (s', model) →
      ∃ c ∈ candidates m t,
        s'.provider = c.provider ∧
        (∀ d ∈ candidates m t, c.provider.priority ≤ d.provider.priority) ∧
        ((candidates m t).filter
            (fun d => d.provider.priority == c.provider.priority)).head? = some c) := by
  have hga : m.get_available_providers =
      sortByPriority ((m.providers.map Prod.snd).filter (fun s => s.status == .healthy)) := rfl
  have hperm := sortByPriority_perm
    ((m.providers.map Prod.snd).filter (fun s => s.status == .healthy))
  have hcurS : ∀ s ∈ m.get_available_providers, cursorOk t s := by
    intro s hs
    rw [hga] at hs
    exact hcur s (List.mem_filter.mp (hperm.mem_iff.mp hs)).1
  constructor
  · rw [show (m.get_provider_for_model t) = scanProviders m t m.get_available_providers
      from rfl]
    rw [scanProviders_none_iff m t _ hcurS]
    constructor
    · intro hall
      rw [candidates, List.filter_eq_nil_iff]
      intro a ha
      have hnil : a.provider.models.forType t = [] :=
        hall a (by rw [hga]; exact hperm.mem_iff.mpr ha)
      simp [hnil]
    · intro hnil s hs
      by_contra hne
      have hsH : s ∈ (m.providers.map Prod.snd).filter (fun s => s.status == .healthy) := by
        rw [hga] at hs
        exact hperm.mem_iff.mp hs
      have hmem : s ∈ candidates m t :=
        List.mem_filter.mpr ⟨hsH, by simpa using hne⟩
      rw [hnil] at hmem
      exact absurd hmem (List.not_mem_nil s)
  · intro s' model h
    obtain ⟨l1, c, l2, hsplit, hemp1, hcne, hcall⟩ :=
      scanProviders_some m t m.get_available_providers hcurS s' model h
    have hPc : (!(c.provider.models.forType t).isEmpty) = true := by simpa using hcne
    have hcsorted : c ∈ m.get_available_providers := by
      rw [hsplit]
      exact List.mem_append_right l1 (List.mem_cons_self _ _)
    have hcH : c ∈ (m.providers.map Prod.snd).filter (fun s => s.status == .healthy) := by
      rw [hga] at hcsorted
      exact hperm.mem_iff.mp hcsorted
    have hcand : c ∈ candidates m t := List.mem_filter.mpr ⟨hcH, hPc⟩
    have hprov : s'.provider = c.provider := by
      have hpe := get_next_model_provider_eq c t
      rw [hcall] at hpe
      exact hpe
    have hpair : List.Pairwise leP (l1 ++ c :: l2) := by
      rw [← hsplit, hga]
      exact sortByPriority_pairwise _
    refine ⟨c, hcand, hprov, ?_, ?_⟩
    · intro d hd
      have hdH : d ∈ (m.providers.map Prod.snd).filter (fun s => s.status == .healthy) :=
        (List.mem_filter.mp hd).1
      have hdsorted : d ∈ l1 ++ c :: l2 := by
        rw [← hsplit, hga]
        exact hperm.mem_iff.mpr hdH
      rcases List.mem_append.mp hdsorted with hd1 | hd2
      · exact absurd (by simp [hemp1 d hd1] : (!(d.provider.models.forType t).isEmpty) = false)
          (by simp [(List.mem_filter.mp hd).2])
      · rcases List.mem_cons.mp hd2 with hdc | hdl2
        · rw [hdc]
        · exact List.rel_of_pairwise_cons (List.pairwise_append.mp hpair).2.1 hdl2
    · have hl1P : l1.filter (fun s => !(s.provider.models.forType t).isEmpty) = [] :=
        List.filter_eq_nil_iff.mpr (fun a ha => by simp [hemp1 a ha])
      rw [candidates]
      rw [filter_swapP]
      rw [← sortByPriority_filter_priority c.provider.priority]
      rw [filter_swapP]
      rw [← hga, hsplit, List.filter_append, hl1P, List.nil_append, List.filter_cons]
      simp only [hPc, if_true]
      rw [List.filter_cons]
      simp

/-- Lexicographic order on character lists, used only to state which
provider name is alphabetically first. -/
def nameLtChars : List Char → List Char → Bool
  | [], [] => false
  | [], _ :: _ => true
  | _ :: _, [] => false
  | a :: as, b :: bs => if a == b then nameLtChars as bs else decide (a.toNat < b.toNat)

/-- Alphabetical comparison of provider names. -/
def nameLt (x y : String) : Bool := nameLtChars x.data y.data

/-- Fixture for C5: two healthy providers with equal priority, listed in
the configuration in the order `b` then `a`. -/
def cfgC5 : ProviderManagerConfig :=
  { providers := [{ name := "b", priority := 1, models := { big := ["m1"] } },
                  { name := "a", priority := 1, models := { big := ["m2"] } }] }

/-- Counterexample for C5.  With two healthy candidates of equal priority
named `b` (listed first) and `a`, selection returns `b` — the stable sort
keeps configuration order for equal priorities — although breaking the tie
by provider name would pick `a` (`a` sorts before `b`). -/
theorem priority_tie_not_broken_by_name :
    ((((ProviderManager.init cfgC5).get_provider_for_model "big").1).map
        (fun r => r.1.provider.name)) = some "b" ∧
      (∃ sa ∈ candidates (ProviderManager.init cfgC5) "big",
        sa.provider.name = "a" ∧ sa.provider.priority = 1) ∧
      (∃ sb ∈ candidates (ProviderManager.init cfgC5) "big",
        sb.provider.name = "b" ∧ sb.provider.priority = 1) ∧
      nameLt "a" "b" = true := by
  decide

/-- Witness for the amended C5 at a concrete input. -/
theorem get_provider_for_model_priority_characterization_witness :
    ((((ProviderManager.init cfgC5).get_provider_for_model "big").1 = none ↔
        candidates (ProviderManager.init cfgC5) "big" = []) ∧
      (∀ s' model,
        (((ProviderManager.init cfgC5).get_provider_for_model "big").1 = some (s', model)) →
        ∃ c ∈ candidates (ProviderManager.init cfgC5) "big",
          s'.provider = c.provider ∧
          (∀ d ∈ candidates (ProviderManager.init cfgC5) "big",
            c.provider.priority ≤ d.provider.priority) ∧
          ((candidates (ProviderManager.init cfgC5) "big").filter
              (fun d => d.provider.priority == c.provider.priority)).head? = some c)) :=
  get_provider_for_model_priority_characterization (ProviderManager.init cfgC5) "big"
    (by decide)

/-! ### C7: error kinds and fallback -/

/-- The identity permutation oracle: `random.shuffle` is never consulted
under the `priority` strategy. -/
def idShuffle : List ProviderState → List ProviderState := fun l => l

/-- Fixture for C7: provider `A` (priority 1, two big models) and `B`
(priority 2, one big model). -/
def cfgC7 : ProviderManagerConfig :=
  { providers := [{ name := "A", priority := 1, models := { big := ["m1", "m2"] } },
                  { name := "B", priority := 2, models := { big := ["n1"] } }] }

/-- Initial run state for C7. -/
def stC7 : RunSt := { cfg := { provider_manager := some (ProviderManager.init cfgC7) } }

/-- Upstream oracle for C7: every call to `A` raises the given HTTP
status, every other call succeeds. -/
def callAFails (status : Nat) : String → String → Option Nat :=
  fun p _ => if p == "A" then some status else none

/-- The provider manager of a run state (total projection for stating
facts about the final state). -/
def pmOf (st : RunSt) : ProviderManager :=
  st.cfg.provider_manager.getD { config := { providers := [] }, providers := [] }

/-- Counterexample for C7.  When `A` fails with 401 (`auth`), the handler
does everything the claim forbids: it rotates to `A`'s next model
(second call, model `m2`), calls `mark_provider_failure` on `A`
(failure count 1, status unhealthy), and escalates to provider `B`
(third call) — the error is not surfaced. -/
theorem auth_error_triggers_fallback :
    (handleRequest "claude-3-opus" (callAFails 401) 0 idShuffle 5 stC7).1 =
        .success "B" "n1" ∧
      (handleRequest "claude-3-opus" (callAFails 401) 0 idShuffle 5 stC7).2.calls =
        [UpstreamCall.mk "A" "m1" 0, UpstreamCall.mk "A" "m2" 1, UpstreamCall.mk "B" "n1" 2] ∧
      (alistFind (pmOf (handleRequest "claude-3-opus" (callAFails 401) 0 idShuffle
            5 stC7).2).providers "A").map (fun s => (s.status, s.failure_count)) =
        some (.unhealthy, 1) := by
  decide

/-- C7 — amended.  The fallback path never inspects the upstream error
kind: for every HTTP status (so in particular 400, 401, 402, 403 and
429), the run is identical to the run with a 500 — same in-provider
rotation, same `mark_provider_failure`, same escalation — and the request
is answered by the fallback provider. -/
theorem fallback_ignores_error_kind (status : Nat) :
    handleRequest "claude-3-opus" (callAFails status) 0 idShuffle 5 stC7 =
        handleRequest "claude-3-opus" (callAFails 500) 0 idShuffle 5 stC7 ∧
      (handleRequest "claude-3-opus" (callAFails status) 0 idShuffle 5 stC7).1 =
        .success "B" "n1" :=
  ⟨rfl, rfl⟩

/-! ### C8: request ids -/

/-- Fixture for C8: one provider with two big models; the first model
fails, the second succeeds. -/
def cfgC8 : ProviderManagerConfig :=
  { providers := [{ name := "A", priority := 1, models := { big := ["m1", "m2"] } }] }

/-- Initial run state for C8. -/
def stC8 : RunSt := { cfg := { provider_manager := some (ProviderManager.init cfgC8) } }

/-- Upstream oracle for C8: model `m1` fails with 500, all else succeeds. -/
def callM1Fails : String → String → Option Nat :=
  fun _ m => if m == "m1" then some 500 else none

/-- Counterexample for C8.  Serving one inbound request, the handler
generates two request ids (the counter ends at 2), and the in-provider
retry upstream call carries the fresh id 1, not the id 0 generated for
the inbound request (`try_fallback` calls `str(uuid.uuid4())` anew). -/
theorem fallback_generates_new_request_id :
    (handleRequest "claude-3-opus" callM1Fails 0 idShuffle 3 stC8).1 =
        .success "A" "m2" ∧
      (handleRequest "claude-3-opus" callM1Fails 0 idShuffle 3 stC8).2.calls =
        [UpstreamCall.mk "A" "m1" 0, UpstreamCall.mk "A" "m2" 1] ∧
      (handleRequest "claude-3-opus" callM1Fails 0 idShuffle 3 stC8).2.ctr = 2 := by
  decide

/-- The request ids carried by the upstream calls of a run. -/
def callRids (st : RunSt) : List Nat := st.calls.map (fun c => c.rid)

/-- Ids recorded so far are strictly increasing and below the fresh-id
counter. -/
def GoodRun (st : RunSt) : Prop :=
  List.Pairwise (· < ·) (callRids st) ∧ ∀ r ∈ callRids st, r < st.ctr

lemma goodRun_record (st : RunSt) (p m : String) (r : Nat) (h : GoodRun st)
    (hr : ∀ x ∈ callRids st, x < r) (hcr : r < st.ctr) :
    GoodRun (recordCall st p m r) := by
  constructor
  · show List.Pairwise (· < ·)
      ((st.calls ++ [UpstreamCall.mk p m r]).map (fun c => c.rid))
    rw [List.map_append]
    rw [List.pairwise_append]
    refine ⟨h.1, List.pairwise_singleton _ _, ?_⟩
    intro x hx y hy
    simp only [List.map_cons, List.map_nil, List.mem_singleton] at hy
    rw [hy]
    exact hr x hx
  · intro x hx
    show x < st.ctr
    simp only [callRids, recordCall, List.map_append, List.mem_append] at hx
    rcases hx with hx | hx
    · exact h.2 x hx
    · simp only [List.map_cons, List.map_nil, List.mem_singleton] at hx
      rw [hx]
      exact hcr

lemma goodRun_bump_cfg (st : RunSt) (cfg' : Config) (h : GoodRun st) :
    GoodRun { st with cfg := cfg', ctr := st.ctr + 1 } :=
  ⟨h.1, fun r hr => Nat.lt_succ_of_lt (h.2 r hr)⟩

lemma goodRun_bump_record (st : RunSt) (cfg' : Config) (p m : String) (h : GoodRun st) :
    GoodRun (recordCall { st with cfg := cfg', ctr := st.ctr + 1 } p m st.ctr) :=
  goodRun_record _ p m st.ctr (goodRun_bump_cfg st cfg' h)
    (fun x hx => h.2 x hx) (Nat.lt_succ_self _)

lemma providerFallback_good (recurse : RunSt → ReqOutcome × RunSt)
    (hrec : ∀ st, GoodRun st → GoodRun (recurse st).2)
    (cm : String) (now : Int) (sh : List ProviderState → List ProviderState)
    (fp : String) (es : Nat) (st : RunSt) (h : GoodRun st) :
    GoodRun (providerFallback recurse cm now sh fp es st).2 := by
  unfold providerFallback
  cases hfb : ModelManager.get_client_and_model (markFailureCfg st.cfg fp now) cm (some fp) sh with
  | mk fb cfg3 =>
    simp only [hfb]
    cases fb with
    | some x => exact hrec _ h
    | none => exact h

lemma tryFallback_good (recurse : RunSt → ReqOutcome × RunSt)
    (hrec : ∀ st, GoodRun st → GoodRun (recurse st).2)
    (cm : String) (call : String → String → Option Nat) (now : Int)
    (sh : List ProviderState → List ProviderState)
    (fp : String) (es : Nat) (st : RunSt) (h : GoodRun st) :
    GoodRun (tryFallback recurse cm call now sh fp es st).2 := by
  unfold tryFallback
  cases hpm : st.cfg.provider_manager with
  | none => simp only [hpm]; exact h
  | some m =>
    simp only [hpm]
    cases hr : ModelManager.get_next_model_for_provider st.cfg cm fp with
    | mk r cfg1 =>
      simp only [hr]
      cases r with
      | none => exact providerFallback_good recurse hrec cm now sh fp es _ h
      | some pr =>
        rcases pr with ⟨model_name, provider_name⟩
        dsimp only
        have h2 : GoodRun (recordCall { st with cfg := cfg1, ctr := st.ctr + 1 }
            provider_name model_name st.ctr) := goodRun_bump_record st cfg1 _ _ h
        cases hc : call provider_name model_name with
        | none =>
          simp only [hc]
          exact h2
        | some status =>
          simp only [hc]
          exact providerFallback_good recurse hrec cm now sh fp es _ h2

lemma handleRequest_good (cm : String) (call : String → String → Option Nat) (now : Int)
    (sh : List ProviderState → List ProviderState) :
    ∀ (fuel : Nat) (st : RunSt), GoodRun st →
      GoodRun (handleRequest cm call now sh fuel st).2 := by
  intro fuel
  induction fuel with
  | zero => intro st h; exact h
  | succ fuel ih =>
    intro st h
    unfold handleRequest
    cases hg : ModelManager.get_client_and_model st.cfg cm none sh with
    | mk r cfg' =>
      simp only [hg]
      cases r with
      | none => exact goodRun_bump_cfg st cfg' h
      | some pr =>
        rcases pr with ⟨model_name, provider_name⟩
        dsimp only
        have h2 : GoodRun (recordCall { st with cfg := cfg', ctr := st.ctr + 1 }
            provider_name model_name st.ctr) := goodRun_bump_record st cfg' _ _ h
        cases hc : call provider_name model_name with
        | none =>
          simp only [hc]
          exact h2
        | some status =>
          simp only [hc]
          exact tryFallback_good (handleRequest cm call now sh fuel) ih
            cm call now sh provider_name status _ h2

/-- C8 — amended.  One fresh request id is generated per handler entry
and used for that entry's upstream call, but the in-provider retry and
every escalation re-entry generate new ids: the upstream calls serving
one inbound request carry strictly increasing — in particular pairwise
distinct — request ids, not one shared id. -/
theorem request_ids_pairwise_distinct (cfg : Config) (cm : String)
    (call : String → String → Option Nat) (now : Int)
    (sh : List ProviderState → List ProviderState) (fuel : Nat) :
    List.Pairwise (· < ·)
      (callRids (handleRequest cm call now sh fuel { cfg := cfg, calls := [], ctr := 0 }).2) :=
  (handleRequest_good cm call now sh fuel { cfg := cfg, calls := [], ctr := 0 }
    ⟨List.Pairwise.nil, fun r hr => absurd hr (List.not_mem_nil r)⟩).1

/-! ### C1: boundedness of cross-provider escalation -/

/-- Fixture for C1: a single enabled provider `A` with one big model,
priority strategy, default circuit breaker. -/
def cfgC1 : ProviderManagerConfig :=
  { providers := [{ name := "A", priority := 1, models := { big := ["m1"] } }] }

/-- Initial run state for C1. -/
def stC1 : RunSt := { cfg := { provider_manager := some (ProviderManager.init cfgC1) } }

/-- Upstream oracle for C1: every upstream call fails with HTTP 500,
including the legacy-fallback client. -/
def callAllFail : String → String → Option Nat := fun _ _ => some 500

/-- The process config after the first handler level of the C1 run:
provider `A` marked unhealthy with one failure and its big cursor back at
zero.  From here the run never changes the config again. -/
def cfgC1fix : Config :=
  { provider_manager := some
      { config := cfgC1
        providers := [("A",
          { provider := { name := "A", priority := 1, models := { big := ["m1"] } }
            status := .unhealthy
            failure_count := 1
            last_failure_time := some 0
            model_indices := [("big", 0)] })] } }

lemma handleRequestC1_loop :
    ∀ (fuel : Nat) (calls : List UpstreamCall) (ctr : Nat),
      (handleRequest "claude-3-opus" callAllFail 0 idShuffle fuel
        { cfg := cfgC1fix, calls := calls, ctr := ctr }).1 = .outOfFuel := by
  intro fuel
  induction fuel with
  | zero => intro calls ctr; rfl
  | succ fuel ih =>
    intro calls ctr
    have hstep : handleRequest "claude-3-opus" callAllFail 0 idShuffle (fuel + 1)
        { cfg := cfgC1fix, calls := calls, ctr := ctr } =
      handleRequest "claude-3-opus" callAllFail 0 idShuffle fuel
        { cfg := cfgC1fix,
          calls := calls ++ [UpstreamCall.mk "Legacy Fallback" "gpt-4o" ctr],
          ctr := ctr + 1 } := rfl
    rw [hstep]
    exact ih _ _

lemma handleRequestC1_entry (fuel : Nat) :
    handleRequest "claude-3-opus" callAllFail 0 idShuffle (fuel + 1) stC1 =
      handleRequest "claude-3-opus" callAllFail 0 idShuffle fuel
        { cfg := cfgC1fix,
          calls := [UpstreamCall.mk "A" "m1" 0, UpstreamCall.mk "A" "m1" 1],
          ctr := 2 } := rfl

/-- C1 — the claim fails on the code.  With a single healthy provider
whose upstream always fails (and the legacy fallback failing too), the
escalation never terminates: for every recursion budget the run is still
escalating, because `get_client_and_model` falls back to the synthetic
`"Legacy Fallback"` client instead of returning none, and
`handle_request_with_fallback` and `try_fallback` re-enter each other
forever.  The same pseudo-provider is called again and again — at budget
6 it has already been tried at least twice — so neither the attempt bound
of "at most the number of distinct healthy providers" nor the
no-duplicates property holds. -/
theorem legacy_fallback_escalation_unbounded :
    (∀ fuel, (handleRequest "claude-3-opus" callAllFail 0 idShuffle fuel stC1).1 =
        .outOfFuel) ∧
      2 ≤ (((handleRequest "claude-3-opus" callAllFail 0 idShuffle 6 stC1).2.calls.map
          (fun c => c.provider)).count "Legacy Fallback") := by
  constructor
  · intro fuel
    cases fuel with
    | zero => rfl
    | succ fuel =>
      rw [handleRequestC1_entry fuel]
      exact handleRequestC1_loop fuel _ _
  · decide
